/-
Verification of the webircproxy bridging pipeline: a shallow embedding of
the UTF-8 transcoder, the WebSocket frame reader, the listener reload
logic, the proxy-header resolver, the WEBIRC handshake assembly and the
configuration reload path, with theorems checking the specification's
claims against the code.

Bytes are modelled as `Nat` values below 256, byte strings as `List Nat`.
Go `int` arithmetic only occurs at places where the values involved are
small and non-negative, so `Nat` is adequate (the one subtraction
`maxLineLen - 2` is guarded in both semantics: a negative Go result and a
truncated-to-zero Nat result both make the comparison false).
-/

import Mathlib

namespace Webircproxy

/-! ## Go's `unicode/utf8` decoding primitives

Faithful to Go's `utf8.DecodeRune` / `utf8.Valid` over byte slices:
a first-byte table selects the sequence length and the accepted range of
the second byte; later bytes must be continuations `0x80..0xBF`; any
malformed, overlong, surrogate or truncated sequence decodes as
`(RuneError, 1)` where `RuneError = U+FFFD = 0xFFFD`. -/

/-- Continuation byte test, Go's `locb <= b && b <= hicb` (`0x80..0xBF`). -/
def isCont (b : Nat) : Bool :=
  decide (0x80 ≤ b) && decide (b ≤ 0xBF)

/-- Accepted range of the second byte of a three-byte sequence
(Go's `acceptRanges` rows for `0xE0`, `0xED` and the default). -/
def accept3 (b0 b1 : Nat) : Bool :=
  if b0 = 0xE0 then decide (0xA0 ≤ b1) && decide (b1 ≤ 0xBF)
  else if b0 = 0xED then decide (0x80 ≤ b1) && decide (b1 ≤ 0x9F)
  else isCont b1

/-- Accepted range of the second byte of a four-byte sequence
(Go's `acceptRanges` rows for `0xF0`, `0xF4` and the default). -/
def accept4 (b0 b1 : Nat) : Bool :=
  if b0 = 0xF0 then decide (0x90 ≤ b1) && decide (b1 ≤ 0xBF)
  else if b0 = 0xF4 then decide (0x80 ≤ b1) && decide (b1 ≤ 0x8F)
  else isCont b1

/-- Go's `utf8.DecodeRune`: returns the decoded code point and the number
of bytes consumed; on any invalid or truncated encoding it returns
`(0xFFFD, 1)`, and on the empty slice `(0xFFFD, 0)`. -/
def utf8DecodeRune : List Nat → Nat × Nat
  | [] => (0xFFFD, 0)
  | b0 :: rest =>
    if b0 < 0x80 then (b0, 1)
    else if b0 < 0xC2 then (0xFFFD, 1)
    else if b0 ≤ 0xDF then
      match rest with
      | b1 :: _ =>
        if isCont b1 then ((b0 - 0xC0) * 0x40 + (b1 - 0x80), 2) else (0xFFFD, 1)
      | [] => (0xFFFD, 1)
    else if b0 ≤ 0xEF then
      match rest with
      | b1 :: b2 :: _ =>
        if accept3 b0 b1 && isCont b2 then
          ((b0 - 0xE0) * 0x1000 + (b1 - 0x80) * 0x40 + (b2 - 0x80), 3)
        else (0xFFFD, 1)
      | _ => (0xFFFD, 1)
    else if b0 ≤ 0xF4 then
      match rest with
      | b1 :: b2 :: b3 :: _ =>
        if accept4 b0 b1 && isCont b2 && isCont b3 then
          ((b0 - 0xF0) * 0x40000 + (b1 - 0x80) * 0x1000 + (b2 - 0x80) * 0x40 + (b3 - 0x80), 4)
        else (0xFFFD, 1)
      | _ => (0xFFFD, 1)
    else (0xFFFD, 1)

/-- Go's `utf8.Valid`: the byte string consists entirely of valid UTF-8
encodings of code points. Written as a structural recursion that walks
one well-formed sequence at a time; it agrees with iterating
`utf8DecodeRune` and failing exactly on a `(0xFFFD, 1)` result. -/
def utf8Valid : List Nat → Bool
  | [] => true
  | b0 :: rest =>
    if b0 < 0x80 then utf8Valid rest
    else if b0 < 0xC2 then false
    else if b0 ≤ 0xDF then
      match rest with
      | b1 :: rest2 => if isCont b1 then utf8Valid rest2 else false
      | [] => false
    else if b0 ≤ 0xEF then
      match rest with
      | b1 :: b2 :: rest3 =>
        if accept3 b0 b1 && isCont b2 then utf8Valid rest3 else false
      | _ => false
    else if b0 ≤ 0xF4 then
      match rest with
      | b1 :: b2 :: b3 :: rest4 =>
        if accept4 b0 b1 && isCont b2 && isCont b3 then utf8Valid rest4 else false
      | _ => false
    else false

/-! ## The transcoder (`irc/unicode.go`) -/

/-- ASCII bytes of a string (all the strings involved are ASCII). -/
def strToBytes (s : String) : List Nat :=
  s.toList.map Char.toNat

/-- `invalidMessageWarning` from `irc/unicode.go`. -/
def invalidMessageWarning : List Nat :=
  strToBytes "WARN * INVALID_MESSAGE :Upstream server sent a syntactically invalid message"

/-- The tags split of `decodeViaReplacementRune`: `bytes.IndexByte(line, 0x20)`
followed by taking `line[:spaceIdx+1]` and `line[spaceIdx+1:]`; `none`
when the line has no space byte. -/
def splitTags : List Nat → Option (List Nat × List Nat)
  | [] => none
  | b :: rest =>
    if b = 0x20 then some ([0x20], rest)
    else
      match splitTags rest with
      | some (pre, post) => some (b :: pre, post)
      | none => none

/-- The body walk of `decodeViaReplacementRune` (`irc/unicode.go` lines
69–90), embedded byte for byte: decode one rune; if the decode result is
not `RuneError` and the guard `bodyLength + l <= maxLineLen - 2` passes,
emit the `l` raw bytes and advance `l`; if the decode result is
`RuneError` and the guard `bodyLength + 3 <= maxLineLen - 2` passes, emit
`EF BF BD` and advance one byte; otherwise stop. As in the source,
`bodyLength` is initialized to 0 and never changed: the recursive calls
pass it through unmodified. `fuel` bounds the iteration count; every step
consumes at least one input byte, so `fuel = line.length` suffices. -/
def replacementLoop (maxLineLen bodyLength : Nat) : Nat → List Nat → List Nat
  | _, [] => []
  | 0, _ :: _ => []
  | fuel + 1, b :: rest =>
    let p := utf8DecodeRune (b :: rest)
    if p.1 ≠ 0xFFFD then
      if bodyLength + p.2 ≤ maxLineLen - 2 then
        (b :: rest).take p.2 ++ replacementLoop maxLineLen bodyLength fuel ((b :: rest).drop p.2)
      else []
    else
      if bodyLength + 3 ≤ maxLineLen - 2 then
        0xEF :: 0xBF :: 0xBD :: replacementLoop maxLineLen bodyLength fuel rest
      else []

/-- `decodeViaReplacementRune` (`irc/unicode.go` lines 50–91). On the
empty line the Go code evaluates `line[0]` and panics with an
out-of-range index; that partiality is modelled as `none`. When the line
starts with `@`, a line with a space keeps the tags segment (through the
space) verbatim and walks the rest; a line without a space yields the
invalid-message warning. -/
def decodeViaReplacementRune (line : List Nat) (maxLineLen : Nat) : Option (List Nat) :=
  match line with
  | [] => none
  | b :: rest =>
    if b = 0x40 then
      match splitTags (b :: rest) with
      | some (pre, post) => some (pre ++ replacementLoop maxLineLen 0 post.length post)
      | none => some invalidMessageWarning
    else
      some (replacementLoop maxLineLen 0 (b :: rest).length (b :: rest))

/-- A reverse-proxy upstream (`reverseProxyUpstream` in `irc/server.go`),
with the fields the verified claims touch. -/
structure Upstream where
  address : String
  tls : Bool
  webircEnabled : Bool
  webircPassword : String

/-- The configuration snapshot (`Config` in `irc/server.go`), restricted
to the fields the verified claims touch. The compiled Origin globs are
modelled as string predicates. -/
structure Config where
  gatewayName : String
  upstreams : List Upstream
  lookupHostnames : Bool
  proxyAllowedFromNets : List Nat
  maxLineLen : Nat
  maxReadQBytes : Nat
  allowedOriginRegexps : List (String → Bool)
  enableChardet : Bool
  encodings : List String

/-- `transcodeToUTF8` (`irc/unicode.go` lines 29–46): the identity fast
path for valid UTF-8, then the strategy dispatch on the configuration.
The two param-transcoding strategies run `decodeViaParamTranscoding` with
a per-param decoder built from the external chardet detector or the
external encoding list; both are abstracted by the function argument
`paramTranscode` (those code paths live in the external `ircmsg`,
`chardet` and `x/text` libraries). The replacement strategy is fully
embedded. -/
def transcodeToUTF8 (paramTranscode : List Nat → Nat → List Nat) (config : Config)
    (line : List Nat) (maxLineLen : Nat) : Option (List Nat) :=
  if utf8Valid line then some line
  else if config.enableChardet then some (paramTranscode line maxLineLen)
  else if config.encodings ≠ [] then some (paramTranscode line maxLineLen)
  else decodeViaReplacementRune line maxLineLen

/-- A configuration whose transcoding policy is the replacement strategy
(no chardet, no fixed encoding list), as built by the tests'
`getTestingServer(false, nil)`. -/
def replacementConfig : Config :=
  { gatewayName := "wp.example"
    upstreams := []
    lookupHostnames := false
    proxyAllowedFromNets := []
    maxLineLen := 512
    maxReadQBytes := 9727
    allowedOriginRegexps := []
    enableChardet := false
    encodings := [] }

/-! ## Spec-worded walks for claim C2

Two definitions written from the specification's words rather than the
source, for comparison with `replacementLoop`. -/

/-- The body walk exactly as claim C2 words it: at each position, if one
UTF-8 code point decodes validly (the decode is not the `(RuneError, 1)`
failure result) its raw bytes are emitted unchanged and the input
advances by its length; if decoding is invalid, the three bytes
`EF BF BD` are emitted and the input advances exactly one byte; emission
stops when it would exceed `maxLineLen - 2` body bytes (the spec's length
bound, with the body length accounted for as the words say). -/
def claimWalk (maxLineLen bodyLength : Nat) : Nat → List Nat → List Nat
  | _, [] => []
  | 0, _ :: _ => []
  | fuel + 1, b :: rest =>
    let p := utf8DecodeRune (b :: rest)
    if ¬(p.1 = 0xFFFD ∧ p.2 = 1) then
      if bodyLength + p.2 ≤ maxLineLen - 2 then
        (b :: rest).take p.2 ++ claimWalk maxLineLen (bodyLength + p.2) fuel ((b :: rest).drop p.2)
      else []
    else
      if bodyLength + 3 ≤ maxLineLen - 2 then
        0xEF :: 0xBF :: 0xBD :: claimWalk maxLineLen (bodyLength + 3) fuel rest
      else []

/-- The amended walk for claim C2: whenever `utf8DecodeRune` yields the
code point `U+FFFD` — because the bytes are invalid, or because the input
contains a literal `EF BF BD` — the three bytes `EF BF BD` are emitted
and the input advances exactly one byte; any other decode emits its raw
bytes and advances by its length. No length guard appears: in the source
the tracked body length is never incremented, so for `maxLineLen ≥ 6` the
guards always pass. -/
def claimWalkAmended : Nat → List Nat → List Nat
  | _, [] => []
  | 0, _ :: _ => []
  | fuel + 1, b :: rest =>
    let p := utf8DecodeRune (b :: rest)
    if p.1 ≠ 0xFFFD then
      (b :: rest).take p.2 ++ claimWalkAmended fuel ((b :: rest).drop p.2)
    else
      0xEF :: 0xBF :: 0xBD :: claimWalkAmended fuel rest

/-! ## The WebSocket frame reader (`readWSMessage`) -/

/-- The errors flowing through `readWSMessage`'s switch: `io.EOF`,
`io.ErrUnexpectedEOF`, `websocket.ErrReadLimit`, and any other read
error. -/
inductive WSReadErr where
  | eof
  | unexpectedEOF
  | readLimit
  | other
  deriving DecidableEq

/-- `io.ReadFull(reader, buf)` over a reader holding `remaining` more
bytes and a buffer of `cap` bytes: fills the buffer and returns no error
when the reader has enough; returns `io.EOF` when the reader is already
empty (and the buffer is non-empty); returns `io.ErrUnexpectedEOF` when
the reader ends after some but fewer than `cap` bytes. -/
def ioReadFull (remaining cap : Nat) : Nat × Option WSReadErr :=
  if cap ≤ remaining then (cap, none)
  else if remaining = 0 then (0, some .eof)
  else (remaining, some .unexpectedEOF)

/-- `readWSMessage` (the buffered variant, `src/unnamed/part_000` lines
315–342) over a message of `m` bytes: `io.ReadFull` into the buffer of
`initSize` bytes; if that filled with no error and the buffer is smaller
than `maxBuffer`, regrow once to `maxBuffer` and `io.ReadFull` the rest;
then the switch maps `EOF`/`ErrUnexpectedEOF` to success,
`nil`/`ErrReadLimit` to `ErrReadLimit`, and surfaces anything else. The
returned `Nat` is the length of the filled slice `r.wsBuffer[:n]`. -/
def readWSMessage (m initSize maxBuffer : Nat) : Nat × Option WSReadErr :=
  let r1 := ioReadFull m initSize
  let after :=
    if r1.2 = none ∧ initSize < maxBuffer then
      let r2 := ioReadFull (m - r1.1) (maxBuffer - initSize)
      (r1.1 + r2.1, r2.2)
    else r1
  match after.2 with
  | some .eof => (after.1, none)
  | some .unexpectedEOF => (after.1, none)
  | none => (after.1, some .readLimit)
  | some .readLimit => (after.1, some .readLimit)
  | some .other => (after.1, some .other)

/-! ## Listeners (`irc/listeners.go`) and `setupListeners` (`irc/server.go`) -/

/-- `utils.ListenerConfig` as populated by `prepareListeners`
(`irc/server.go`): proxy deadline, tor flag, TLS configuration presence
and require-proxy flag. There is no stream-versus-websocket mode field:
every listener of this repository is a WebSocket listener. -/
structure ListenerConfig where
  proxyDeadlineMinutes : Nat
  tor : Bool
  tlsConfigPresent : Bool
  requireProxy : Bool
  deriving DecidableEq

/-- `errCantReloadListener` (`irc/listeners.go` line 21). -/
def errCantReloadListener : String :=
  "can\x27t switch a listener between stream and websocket"

/-- `WSListener.Reload` (`irc/listeners.go` lines 75–78): forwards the
config to the reloadable listener and unconditionally returns no error. -/
def wsListenerReload (_config : ListenerConfig) : Option String :=
  none

/-- What `setupListeners` does with one address. -/
inductive AddrOutcome where
  | keptInPlace
  | stoppedRecreated
  | stoppedGone
  | created
  | absent
  deriving DecidableEq

/-- The per-address behaviour of `setupListeners` (`irc/server.go` lines
175–220). The two loops are keyed by address and independent across
addresses: an existing listener that is still configured is reloaded in
place when `Reload` returns no error, and otherwise stopped, removed and
recreated by the second loop; an existing listener no longer configured
is stopped; a newly configured address gets a fresh listener.
`reloadRes` abstracts the listener's reload outcome and `createSucceeds`
abstracts whether `NewListener` succeeds. -/
def setupListenerAddr (inOld : Bool) (newCfg : Option ListenerConfig)
    (reloadRes : ListenerConfig → Option String) (createSucceeds : Bool) : AddrOutcome :=
  match inOld, newCfg with
  | true, some c =>
    match reloadRes c with
    | none => .keptInPlace
    | some _ => if createSucceeds then .stoppedRecreated else .stoppedGone
  | true, none => .stoppedGone
  | false, some _ => if createSucceeds then .created else .absent
  | false, none => .absent

/-! ## Origin gating (`WSListener.handle`, `irc/listeners.go` lines 90–107) -/

/-- Go's `unicode.IsSpace` on the code points that occur in Latin-1:
`\t \n \v \f \r`, space, next-line `U+0085` and no-break space `U+00A0`. -/
def isSpaceGo (c : Char) : Bool :=
  c = ' ' || c = '\t' || c = '\n' || c = '\x0b' || c = '\x0c' || c = '\r' ||
    c = '\x85' || c = '\xa0'

/-- Go's `strings.TrimSpace`: drop leading and trailing white space. -/
def goTrimSpace (s : String) : String :=
  String.mk (((s.toList.dropWhile isSpaceGo).reverse.dropWhile isSpaceGo).reverse)

/-- The `CheckOrigin` closure of `WSListener.handle`: with no compiled
Origin patterns every origin is accepted; otherwise the trimmed `Origin`
header must be non-empty and match at least one compiled glob. The
compiled globs are modelled as string predicates. -/
def checkOrigin (allowedOriginRegexps : List (String → Bool)) (originHeader : String) : Bool :=
  if allowedOriginRegexps.isEmpty then true
  else
    let origin := goTrimSpace originHeader
    if origin = "" then false
    else allowedOriginRegexps.any (fun re => re origin)

/-! ## Proxy-header resolution (`confirmProxyData`, `irc/listeners.go`)

IP addresses are modelled as abstract identifiers (`Nat`); the only
operations the resolved logic uses on them are equality and membership in
the trusted-network list, so the list of trusted networks is modelled as
the set of addresses it covers. -/

/-- Modelled from the spec: `utils.IPInNets` lives in the external
`ergo/irc/utils` module; per the spec it tests whether the address is
covered by the `proxy-allowed-from` network list, modelled as membership
in the covered set. -/
def ipInNets (ip : Nat) (nets : List Nat) : Bool :=
  nets.contains ip

/-- Walk the X-Forwarded-For entries from rightmost to leftmost, peeling
hops that are in the trusted list; the first untrusted entry is the
answer, and if every entry is trusted the leftmost one is. `last` is the
most recent address examined. -/
def peelTrusted (nets : List Nat) : List Nat → Nat → Nat
  | [], last => last
  | x :: restRev, _ => if ipInNets x nets then peelTrusted nets restRev x else x

/-- Modelled from the spec: `utils.HandleXForwardedFor` lives in the
external `ergo/irc/utils` module. Per the spec, the header is parsed
right to left using the trusted-network list to peel trusted hops,
yielding the first untrusted address, and a request from a peer not in
`proxy-allowed-from` has its header ignored: the peer's own address is
returned. -/
def handleXForwardedFor (peer : Nat) (chain : List Nat) (nets : List Nat) : Option Nat :=
  if ipInNets peer nets then some (peelTrusted nets chain.reverse peer)
  else some peer

/-- The mutable fields of `utils.WrappedConn` that `confirmProxyData`
reads and writes, plus the listener-config facts it consults. -/
structure WrappedConnState where
  proxiedIP : Option Nat
  secure : Bool
  tlsConfigPresent : Bool
  tor : Bool

/-- `confirmProxyData` (`irc/listeners.go` lines 131–152): a PROXY-header
IP is kept only when the transport peer is in `proxy-allowed-from` and
cleared otherwise; else a present X-Forwarded-For header resolves through
`handleXForwardedFor`, and the result is adopted only when it differs
from the transport peer. The secure flag is true when this listener
terminated TLS or is a tor listener, and otherwise exactly when the peer
is trusted and X-Forwarded-Proto is `https`. -/
def confirmProxyData (conn : WrappedConnState) (peer : Nat) (xff : List Nat)
    (xfp : String) (nets : List Nat) : WrappedConnState :=
  let conn1 :=
    match conn.proxiedIP with
    | some _ => if ipInNets peer nets then conn else { conn with proxiedIP := none }
    | none =>
      if xff ≠ [] then
        match handleXForwardedFor peer xff nets with
        | some p => if p ≠ peer then { conn with proxiedIP := some p } else conn
        | none => conn
      else conn
  let secure :=
    if conn1.tlsConfigPresent || conn1.tor then true
    else ipInNets peer nets && (xfp == "https")
  { conn1 with secure := secure }

/-- The effective client IP computed at the head of
`RunReverseProxyConn` (`irc/reverseproxy.go` lines 30–33): the proxied
IP when set, the transport peer otherwise. -/
def effectiveIP (proxiedIP : Option Nat) (peer : Nat) : Nat :=
  proxiedIP.getD peer

/-! ## WEBIRC handshake (`RunReverseProxyConn`, `irc/reverseproxy.go`)
and upstream postprocessing (`postprocessConfig`, `irc/server.go`) -/

/-- Go's `strings.TrimPrefix(address, "unix:")` as applied to upstream
addresses in `postprocessConfig`. -/
def stripUnixScheme (s : String) : String :=
  if s.startsWith "unix:" then s.drop 5 else s

/-- The per-upstream postprocessing of `postprocessConfig`
(`irc/server.go` lines 496–510): the address loses a `unix:` scheme, and
a WEBIRC-enabled upstream with an empty configured password gets the
literal `*`. (Certificate loading is filesystem I/O and is omitted.) -/
def postprocessUpstream (u : Upstream) : Upstream :=
  { u with
    address := stripUnixScheme u.address
    webircPassword :=
      if u.webircEnabled ∧ u.webircPassword = "" then "*" else u.webircPassword }

/-- The flags parameter of the WEBIRC line: `secure` when the client
connection is secure, empty otherwise. -/
def webircFlags (secure : Bool) : String :=
  if secure then "secure" else ""

/-- The hostname parameter of the WEBIRC line: the reverse-DNS result
when hostname lookups are enabled, the IP string otherwise. -/
def webircHostname (lookupHostnames : Bool) (dnsResult ipString : String) : String :=
  if lookupHostnames then dnsResult else ipString

/-- Modelled from the spec: the line serializer lives in the external
`irc-go/ircmsg` library (`MakeMessage` + `LineBytesStrict`); per the spec
the serialized handshake is exactly
`WEBIRC <password> <gateway-name> <hostname> <ip> :<flags>` terminated by
CRLF, bounded by the fixed default of 512 bytes. -/
def serializeWebirc (password gatewayName hostname ipString flags : String) : String :=
  "WEBIRC " ++ password ++ " " ++ gatewayName ++ " " ++ hostname ++ " " ++ ipString ++
    " :" ++ flags ++ "\r\n"

/-- The WEBIRC line assembled by `RunReverseProxyConn` (`irc/reverseproxy.go`
lines 67–87) for a WEBIRC-enabled upstream: parameters are the upstream's
password, the gateway name, the hostname (the IP string when lookups are
disabled), the IP string, and the flags. -/
def webircLine (gatewayName : String) (lookupHostnames : Bool) (dnsResult : String)
    (u : Upstream) (ipString : String) (secure : Bool) : String :=
  serializeWebirc u.webircPassword gatewayName
    (webircHostname lookupHostnames dnsResult ipString) ipString (webircFlags secure)

/-! ## Configuration reload (`rehash`, `irc/server.go`; `irc/getters.go`) -/

/-- The server state the reload path touches: the published configuration
snapshot (the atomic pointer `Server.config`). -/
structure ServerState where
  config : Config

/-- `Server.Config` (`irc/getters.go`): the atomic load of the published
snapshot. -/
def serverConfig (st : ServerState) : Config :=
  st.config

/-- `Server.SetConfig` (`irc/getters.go`): the atomic store publishing a
snapshot. -/
def setConfig (st : ServerState) (c : Config) : ServerState :=
  { st with config := c }

/-- `applyConfig` (`irc/server.go` lines 126–150): publish the new
snapshot with `SetConfig`, then set up listeners; `setupListenersResult`
abstracts the outcome of `setupListeners` (bind errors). -/
def applyConfig (st : ServerState) (c : Config) (setupListenersResult : Option String) :
    ServerState × Option String :=
  (setConfig st c, setupListenersResult)

/-- `rehash` (`irc/server.go` lines 98–124): load and validate the
configuration file — abstracted as `loadResult`, since `LoadConfig` reads
the filesystem — and on any load or validation error return before
anything is published; on success run `applyConfig`. -/
def rehash (st : ServerState) (loadResult : Except String Config)
    (setupListenersResult : Option String) : ServerState × Option String :=
  match loadResult with
  | .error e => (st, some e)
  | .ok c => applyConfig st c setupListenersResult

/-! ## Helper lemmas -/

/-- On a non-empty input, `utf8DecodeRune` consumes at least one byte. -/
theorem utf8DecodeRune_size_pos (b : Nat) (rest : List Nat) :
    1 ≤ (utf8DecodeRune (b :: rest)).2 := by
  unfold utf8DecodeRune
  repeat' split <;> try simp
  all_goals simp_all

/-- `utf8DecodeRune` consumes at most four bytes. -/
theorem utf8DecodeRune_size_le (l : List Nat) :
    (utf8DecodeRune l).2 ≤ 4 := by
  unfold utf8DecodeRune
  repeat' split <;> try simp

/-- On any non-empty line the replacement decoder produces a result (all
its branches return a value); partiality is confined to the empty line. -/
theorem decodeViaReplacementRune_isSome (b : Nat) (rest : List Nat) (m : Nat) :
    (decodeViaReplacementRune (b :: rest) m).isSome = true := by
  unfold decodeViaReplacementRune
  repeat' split <;> try simp
  all_goals simp_all

/-! ## Claim theorems -/

/-- Claim C5: for every byte sequence `s` that is valid UTF-8 and fits
in `maxLineLen - 2` bytes, `transcodeToUTF8 s maxLineLen = s`, regardless
of the configured strategy: the identity fast path runs before the
strategy dispatch. -/
theorem C5_transcode_identity (paramTranscode : List Nat → Nat → List Nat)
    (config : Config) (line : List Nat) (maxLineLen : Nat)
    (hvalid : utf8Valid line = true) (_hfit : line.length + 2 ≤ maxLineLen) :
    transcodeToUTF8 paramTranscode config line maxLineLen = some line := by
  simp [transcodeToUTF8, hvalid]

/-- Witness for C5 at the spec's own example `PRIVMSG #ircv3 :hi there`. -/
theorem C5_transcode_identity_witness :
    utf8Valid (strToBytes "PRIVMSG #ircv3 :hi there") = true ∧
    (strToBytes "PRIVMSG #ircv3 :hi there").length + 2 ≤ 512 ∧
    transcodeToUTF8 (fun l _ => l) replacementConfig
        (strToBytes "PRIVMSG #ircv3 :hi there") 512 =
      some (strToBytes "PRIVMSG #ircv3 :hi there") :=
  ⟨by decide, by decide,
    C5_transcode_identity (fun l _ => l) replacementConfig
      (strToBytes "PRIVMSG #ircv3 :hi there") 512 (by decide) (by decide)⟩

/-- Claim C9: a reload whose configuration load or validation fails
(`LoadConfig` returns an error) leaves the published snapshot untouched
and reports the error, while a successful load publishes exactly the new
snapshot; `Server.Config` returns the published snapshot. -/
theorem C9_rehash_atomic (st : ServerState) (e : String)
    (slr : Option String) (c : Config) :
    serverConfig (rehash st (.error e) slr).1 = serverConfig st ∧
    (rehash st (.error e) slr).2 = some e ∧
    serverConfig (rehash st (.ok c) slr).1 = c :=
  ⟨rfl, rfl, rfl⟩

/-- Claim C10: `transcodeToUTF8` is total on every input including the
empty line — the empty byte sequence is valid UTF-8, so the identity fast
path returns it before `decodeViaReplacementRune` (which reads `line[0]`
unguarded, modelled as `none` on the empty line) can run. -/
theorem C10_transcode_no_oob :
    (∀ (pt : List Nat → Nat → List Nat) (config : Config) (line : List Nat) (m : Nat),
      (transcodeToUTF8 pt config line m).isSome = true) ∧
    (∀ m : Nat, decodeViaReplacementRune [] m = none) ∧
    utf8Valid [] = true := by
  refine ⟨?_, fun _ => rfl, rfl⟩
  intro pt config line m
  by_cases hv : utf8Valid line = true
  · simp [transcodeToUTF8, hv]
  · cases line with
    | nil => exact absurd rfl hv
    | cons b rest =>
      by_cases hc : config.enableChardet = true <;>
        by_cases he : config.encodings = [] <;>
          simp [transcodeToUTF8, hv, hc, he, decodeViaReplacementRune_isSome]

/-- Claim C4: within this repository every listener is a WebSocket
listener and `utils.ListenerConfig` has no stream-versus-websocket mode,
so no expressible reload changes a listener's fundamental mode;
`WSListener.Reload` returns no error for every config, so every reload of
a still-configured address keeps the listener in place, and in
`setupListeners` a reload that did return an error (as
`errCantReloadListener` would) forces the listener to be stopped and
recreated. -/
theorem C4_listener_reload (c : ListenerConfig) (createOk : Bool)
    (r : ListenerConfig → Option String) :
    wsListenerReload c = none ∧
    setupListenerAddr true (some c) wsListenerReload createOk = .keptInPlace ∧
    (r c = some errCantReloadListener →
      setupListenerAddr true (some c) r true = .stoppedRecreated) := by
  refine ⟨rfl, rfl, ?_⟩
  intro h
  simp [setupListenerAddr, h]

/-- Witness for C4 at a concrete config and a reload oracle that returns
the dedicated error. -/
theorem C4_listener_reload_witness :
    setupListenerAddr true (some ⟨1, false, false, false⟩)
        (fun _ => some errCantReloadListener) true = .stoppedRecreated :=
  (C4_listener_reload ⟨1, false, false, false⟩ true
    (fun _ => some errCantReloadListener)).2.2 rfl

/-- Claim C8: with gateway-name `wp.example`, password `P`, client IP
`203.0.113.5`, secure and hostname lookups disabled, the WEBIRC line sent
upstream is exactly `WEBIRC P wp.example 203.0.113.5 203.0.113.5 :secure`
followed by CRLF, at most 512 bytes; and a WEBIRC-enabled upstream whose
configured password is empty gets the literal `*` in postprocessing. -/
theorem C8_webirc_line :
    webircLine "wp.example" false "unused.dns"
        ⟨"irc.example", false, true, "P"⟩ "203.0.113.5" true =
      "WEBIRC P wp.example 203.0.113.5 203.0.113.5 :secure\r\n" ∧
    ("WEBIRC P wp.example 203.0.113.5 203.0.113.5 :secure\r\n").length ≤ 512 ∧
    (∀ u : Upstream, u.webircEnabled = true → u.webircPassword = "" →
      (postprocessUpstream u).webircPassword = "*") := by
  refine ⟨rfl, by decide, ?_⟩
  intro u h1 h2
  simp [postprocessUpstream, h1, h2]

/-- Witness for C8 at a concrete WEBIRC-enabled upstream with empty
password. -/
theorem C8_webirc_line_witness :
    (postprocessUpstream ⟨"irc.example", false, true, ""⟩).webircPassword = "*" :=
  C8_webirc_line.2.2 ⟨"irc.example", false, true, ""⟩ rfl rfl

set_option maxRecDepth 10000 in
/-- Claim C1 (refuted — code bug): the transcoded line is not always
within `maxLineLen`. The guard variable `bodyLength` of
`decodeViaReplacementRune` is declared to track the emitted body length
but is never incremented, so the guard `bodyLength + 3 <= maxLineLen - 2`
never fires: 171 invalid bytes expand to `171 * 3 = 513` output bytes
with `maxLineLen = 512`, breaching the claimed `len + 2 ≤ maxLineLen`
(and the code's own comment that the line must not grow over the valid
limit). Independently, the identity fast path returns an over-long valid
UTF-8 input unchanged (600 bytes against `maxLineLen = 512`), which the
code comments declare out of scope. -/
theorem C1_transcode_length_bound_broken :
    ((transcodeToUTF8 (fun l _ => l) replacementConfig
        (List.replicate 171 0xFF) 512).map List.length) = some 513 ∧
    ¬(513 + 2 ≤ 512) ∧
    ((transcodeToUTF8 (fun l _ => l) replacementConfig
        (List.replicate 600 97) 512).map List.length) = some 600 :=
  ⟨by decide, by decide, by decide⟩

set_option maxRecDepth 10000 in
/-- Claim C2 (counterexample): the code's walk diverges from the claimed
walk (`claimWalk`, the claim's words rendered directly) at two concrete
inputs, one per clause of the claim. First, the per-position rule: on the
body `FF EF BF BD`, the trailing three bytes are a valid encoding of
`U+FFFD`, so the claimed walk emits one replacement for `FF` and then the
valid code point's raw bytes (six bytes in total); the code instead
compares the decoded rune against `utf8.RuneError`, takes the invalid
branch on a literal `U+FFFD`, advances only one byte, and goes on to
garble the two orphaned continuation bytes: four replacement characters
(twelve bytes). Second, the `within the length bound` clause: on 171
invalid bytes at `maxLineLen = 512` the claimed walk accounts for the
emitted body length and stops at 510 bytes, while the code never
increments `bodyLength`, never fires the guard, and emits 513 bytes. -/
theorem C2_replacement_walk_counterexample :
    replacementLoop 512 0 4 [0xFF, 0xEF, 0xBF, 0xBD] =
      [0xEF, 0xBF, 0xBD, 0xEF, 0xBF, 0xBD, 0xEF, 0xBF, 0xBD, 0xEF, 0xBF, 0xBD] ∧
    claimWalk 512 0 4 [0xFF, 0xEF, 0xBF, 0xBD] = [0xEF, 0xBF, 0xBD, 0xEF, 0xBF, 0xBD] ∧
    decodeViaReplacementRune [0xFF, 0xEF, 0xBF, 0xBD] 512 =
      some [0xEF, 0xBF, 0xBD, 0xEF, 0xBF, 0xBD, 0xEF, 0xBF, 0xBD, 0xEF, 0xBF, 0xBD] ∧
    (replacementLoop 512 0 171 (List.replicate 171 0xFF)).length = 513 ∧
    (claimWalk 512 0 171 (List.replicate 171 0xFF)).length = 510 := by
  refine ⟨by decide, by decide, by decide, by decide, by decide⟩

/-- Claim C3 (counterexample): a message that exhausts the reader exactly
when the (regrown) buffer fills is not returned successfully: with a
2048-byte message, a 1024-byte initial buffer and a 2048-byte cap, the
second `io.ReadFull` fills the buffer and returns no error, and the
switch maps that to `websocket.ErrReadLimit` even though the reader has
no further data. -/
theorem C3_read_ws_message_counterexample :
    readWSMessage 2048 1024 2048 = (2048, some WSReadErr.readLimit) := by
  decide

/-- Claim C6: a PROXY-header IP survives `confirmProxyData` exactly when
the transport peer is in `proxy-allowed-from` (and is cleared otherwise);
with no PROXY IP and an X-Forwarded-For header present, an untrusted peer
has the header ignored — the proxied IP stays unset and the effective
client IP is the peer's own — while a trusted peer adopts the resolved
first-untrusted address exactly when it differs from the peer: a resolved
address equal to the transport peer is redundant and leaves the proxied
IP unset (the code's `!proxiedIP.Equal` guard). -/
theorem C6_proxy_ip_trust (conn : WrappedConnState) (peer : Nat) (xff : List Nat)
    (xfp : String) (nets : List Nat) :
    (∀ ip, conn.proxiedIP = some ip →
      (confirmProxyData conn peer xff xfp nets).proxiedIP =
        if ipInNets peer nets then some ip else none) ∧
    (conn.proxiedIP = none → xff ≠ [] → ipInNets peer nets = false →
      (confirmProxyData conn peer xff xfp nets).proxiedIP = none ∧
      effectiveIP (confirmProxyData conn peer xff xfp nets).proxiedIP peer = peer) ∧
    (conn.proxiedIP = none → xff ≠ [] → ipInNets peer nets = true →
      ∀ a, handleXForwardedFor peer xff nets = some a → a ≠ peer →
        (confirmProxyData conn peer xff xfp nets).proxiedIP = some a) ∧
    (conn.proxiedIP = none → xff ≠ [] →
      handleXForwardedFor peer xff nets = some peer →
      (confirmProxyData conn peer xff xfp nets).proxiedIP = none ∧
      effectiveIP (confirmProxyData conn peer xff xfp nets).proxiedIP peer = peer) := by
  refine ⟨?_, ?_, ?_, ?_⟩
  · intro ip hip
    by_cases hn : ipInNets peer nets <;> simp [confirmProxyData, hip, hn]
  · intro h0 hx hn
    simp [confirmProxyData, effectiveIP, h0, hx, handleXForwardedFor, hn]
  · intro h0 hx hn a ha hne
    simp [confirmProxyData, h0, hx, ha, hne]
  · intro h0 hx hp
    simp [confirmProxyData, effectiveIP, h0, hx, hp]

/-- Witness for C6: peer 7 untrusted against trusted set `{5}` keeps the
proxied IP unset with effective IP 7 and clears a PROXY-header IP;
trusted peer 5 adopts the forwarded address 3, keeps a PROXY-header IP,
and leaves the proxied IP unset when the header resolves back to the
peer itself (`X-Forwarded-For: 5`). -/
theorem C6_proxy_ip_trust_witness :
    (confirmProxyData ⟨none, false, false, false⟩ 7 [3] "" [5]).proxiedIP = none ∧
    effectiveIP (confirmProxyData ⟨none, false, false, false⟩ 7 [3] "" [5]).proxiedIP 7 = 7 ∧
    (confirmProxyData ⟨none, false, false, false⟩ 5 [3] "" [5]).proxiedIP = some 3 ∧
    (confirmProxyData ⟨some 9, false, false, false⟩ 7 [] "" [5]).proxiedIP = none ∧
    (confirmProxyData ⟨some 9, false, false, false⟩ 5 [] "" [5]).proxiedIP = some 9 ∧
    (confirmProxyData ⟨none, false, false, false⟩ 5 [5] "" [5]).proxiedIP = none ∧
    effectiveIP (confirmProxyData ⟨none, false, false, false⟩ 5 [5] "" [5]).proxiedIP 5 = 5 := by
  refine ⟨?_, ?_, ?_, ?_, ?_, ?_, ?_⟩
  · exact ((C6_proxy_ip_trust ⟨none, false, false, false⟩ 7 [3] "" [5]).2.1
      rfl (by decide) (by decide)).1
  · exact ((C6_proxy_ip_trust ⟨none, false, false, false⟩ 7 [3] "" [5]).2.1
      rfl (by decide) (by decide)).2
  · exact (C6_proxy_ip_trust ⟨none, false, false, false⟩ 5 [3] "" [5]).2.2.1
      rfl (by decide) (by decide) 3 (by decide) (by decide)
  · have h := (C6_proxy_ip_trust ⟨some 9, false, false, false⟩ 7 [] "" [5]).1 9 rfl
    simpa using h
  · have h := (C6_proxy_ip_trust ⟨some 9, false, false, false⟩ 5 [] "" [5]).1 9 rfl
    simpa using h
  · exact ((C6_proxy_ip_trust ⟨none, false, false, false⟩ 5 [5] "" [5]).2.2.2
      rfl (by decide) (by decide)).1
  · exact ((C6_proxy_ip_trust ⟨none, false, false, false⟩ 5 [5] "" [5]).2.2.2
      rfl (by decide) (by decide)).2

/-- Claim C7: with no configured Origin allow-list the origin check
accepts every request; with a non-empty allow-list it accepts exactly
when the trimmed Origin header is non-empty and matches at least one
compiled glob, and in particular an empty Origin is rejected. -/
theorem C7_origin_gating (pats : List (String → Bool)) (h : String) :
    (pats = [] → checkOrigin pats h = true) ∧
    (pats ≠ [] →
      (checkOrigin pats h = true ↔
        goTrimSpace h ≠ "" ∧ pats.any (fun re => re (goTrimSpace h)) = true)) ∧
    (pats ≠ [] → goTrimSpace h = "" → checkOrigin pats h = false) := by
  refine ⟨?_, ?_, ?_⟩
  · intro hp
    simp [checkOrigin, hp]
  · intro hp
    have hne : pats.isEmpty = false := by
      cases pats with
      | nil => exact absurd rfl hp
      | cons a as => rfl
    by_cases ht : goTrimSpace h = "" <;> simp [checkOrigin, hne, ht]
  · intro hp ht
    have hne : pats.isEmpty = false := by
      cases pats with
      | nil => exact absurd rfl hp
      | cons a as => rfl
    simp [checkOrigin, hne, ht]

/-- Witness for C7: a one-pattern allow-list accepts a matching trimmed
origin, rejects an empty origin, and an empty allow-list accepts
anything. -/
theorem C7_origin_gating_witness :
    checkOrigin [fun s => s == "https://chat.example.com"] " https://chat.example.com " = true ∧
    checkOrigin [fun s => s == "https://chat.example.com"] "" = false ∧
    checkOrigin [] "https://evil.example" = true := by
  refine ⟨?_, ?_, ?_⟩
  · exact ((C7_origin_gating [fun s => s == "https://chat.example.com"]
      " https://chat.example.com ").2.1 (by simp)).mpr ⟨by decide, by decide⟩
  · exact (C7_origin_gating [fun s => s == "https://chat.example.com"] "").2.2
      (by simp) (by decide)
  · exact (C7_origin_gating [] "https://evil.example").1 rfl

/-- Claim C2 (amended): whenever `utf8DecodeRune` yields `U+FFFD` —
because the bytes are invalid or are a literal `U+FFFD` encoding — the
walk emits `EF BF BD` and advances exactly one byte; any other decode
emits its raw bytes unchanged and advances by its length. For
`maxLineLen ≥ 6` the length guards never fire (the tracked body length is
never incremented), so the walk equals the unguarded amended walk on
every input with sufficient fuel (`fuel = line.length` is what
`decodeViaReplacementRune` supplies). -/
theorem C2_replacement_walk_amended (maxLineLen : Nat) (hm : 6 ≤ maxLineLen) :
    ∀ (fuel : Nat) (line : List Nat), line.length ≤ fuel →
      replacementLoop maxLineLen 0 fuel line = claimWalkAmended fuel line := by
  intro fuel
  induction fuel with
  | zero =>
    intro line hl
    cases line with
    | nil => rfl
    | cons b rest => simp at hl
  | succ n ih =>
    intro line hl
    cases line with
    | nil => rfl
    | cons b rest =>
      have hpos := utf8DecodeRune_size_pos b rest
      have hle := utf8DecodeRune_size_le (b :: rest)
      simp only [replacementLoop, claimWalkAmended]
      by_cases hp : (utf8DecodeRune (b :: rest)).1 = 0xFFFD
      · simp only [hp, ne_eq, not_true_eq_false, if_false,
          show (0 : Nat) + 3 ≤ maxLineLen - 2 by omega, if_true]
        have : rest.length ≤ n := by simp at hl; omega
        rw [ih rest this]
      · simp only [ne_eq, hp, not_false_eq_true, if_true,
          show (0 : Nat) + (utf8DecodeRune (b :: rest)).2 ≤ maxLineLen - 2 by omega, if_true]
        have hlen : ((b :: rest).drop (utf8DecodeRune (b :: rest)).2).length ≤ n := by
          simp only [List.length_drop, List.length_cons]
          simp only [List.length_cons] at hl
          omega
        rw [ih _ hlen]

/-- Witness for C2 at `maxLineLen = 512` and the counterexample's body
bytes. -/
theorem C2_replacement_walk_amended_witness :
    replacementLoop 512 0 4 [0xFF, 0xEF, 0xBF, 0xBD] =
      claimWalkAmended 4 [0xFF, 0xEF, 0xBF, 0xBD] :=
  C2_replacement_walk_amended 512 (by decide) 4 [0xFF, 0xEF, 0xBF, 0xBD] (by decide)

/-- `io.ReadFull` fills the buffer with no error when the reader holds
enough bytes. -/
theorem ioReadFull_fills (remaining cap : Nat) (h : cap ≤ remaining) :
    ioReadFull remaining cap = (cap, none) := by
  simp [ioReadFull, h]

/-- `io.ReadFull` returns `io.EOF` on an already-empty reader. -/
theorem ioReadFull_empty (remaining cap : Nat) (h : remaining = 0) (h2 : 0 < cap) :
    ioReadFull remaining cap = (0, some .eof) := by
  subst h
  simp [ioReadFull, Nat.not_le.mpr h2]

/-- `io.ReadFull` returns `io.ErrUnexpectedEOF` when the reader ends
after some but fewer than `cap` bytes. -/
theorem ioReadFull_short (remaining cap : Nat) (h : remaining < cap) (h2 : 0 < remaining) :
    ioReadFull remaining cap = (remaining, some .unexpectedEOF) := by
  simp [ioReadFull, Nat.not_le.mpr h, Nat.pos_iff_ne_zero.mp h2]

/-- Claim C3 (amended): a message strictly smaller than the regrown
buffer — the reader exhausts strictly before the buffer fills — is
returned successfully as the filled slice; a message of at least the
buffer cap fails with the read-limit error, including the case where the
reader exhausts exactly as the buffer fills (at the `io.ReadFull` level a
full read reports no error, which the switch maps to
`websocket.ErrReadLimit`). -/
theorem C3_read_ws_message_amended (m initSize maxBuffer : Nat)
    (h0 : 0 < initSize) (h1 : initSize < maxBuffer) :
    (m < maxBuffer → readWSMessage m initSize maxBuffer = (m, none)) ∧
    (maxBuffer ≤ m → readWSMessage m initSize maxBuffer = (maxBuffer, some .readLimit)) := by
  constructor
  · intro hm
    rcases Nat.lt_or_ge m initSize with hlt | hge
    · rcases Nat.eq_zero_or_pos m with hz | hpos
      · subst hz
        unfold readWSMessage
        rw [ioReadFull_empty 0 initSize rfl h0]
        simp
      · unfold readWSMessage
        rw [ioReadFull_short m initSize hlt hpos]
        simp
    · rcases Nat.eq_or_lt_of_le hge with heq | hgt
      · unfold readWSMessage
        rw [ioReadFull_fills m initSize hge]
        simp only [h1, and_true]
        rw [ioReadFull_empty (m - initSize) (maxBuffer - initSize) (by omega) (by omega)]
        simp [← heq]
      · unfold readWSMessage
        rw [ioReadFull_fills m initSize hge]
        simp only [h1, and_true]
        rw [ioReadFull_short (m - initSize) (maxBuffer - initSize) (by omega) (by omega)]
        simp [Nat.add_sub_cancel' hge]
  · intro hm
    unfold readWSMessage
    rw [ioReadFull_fills m initSize (by omega)]
    simp only [h1, and_true]
    rw [ioReadFull_fills (m - initSize) (maxBuffer - initSize) (by omega)]
    simp [Nat.add_sub_cancel' (Nat.le_of_lt h1)]

/-- Witness for C3 at the 1024-byte initial buffer and a 2048-byte cap:
a 100-byte message succeeds, a 4096-byte message fails with the
read-limit error. -/
theorem C3_read_ws_message_amended_witness :
    readWSMessage 100 1024 2048 = (100, none) ∧
    readWSMessage 4096 1024 2048 = (2048, some WSReadErr.readLimit) :=
  ⟨(C3_read_ws_message_amended 100 1024 2048 (by decide) (by decide)).1 (by decide),
    (C3_read_ws_message_amended 4096 1024 2048 (by decide) (by decide)).2 (by decide)⟩

end Webircproxy
